import Mathlib

/-!
Shallow embedding of the cost-governed external-API orchestration layer of the
Young-Production backend (`src/backend/src`), covering:

* `utils/cost_tracker.py` — `CostTracker.add_cost`, `check_limits`,
  `get_today_cost`, `get_month_cost`;
* `core/ai_client.py` — `AIClient.COSTS`, `AIClient.generate`,
  `AIClient.generate_with_cost_tracking`;
* `core/notion_client.py` — `NotionClient._request` retry loop;
* `utils/state_manager.py` — `StateManager.save_workflow_state`,
  `load_workflow_state`, `mark_entry_processed`, `get_processed_entries`;
* `core/exceptions.py` — the payload-carrying failure types the above raise.

Modelling conventions: monetary amounts and prices are exact rationals (the
Python source uses float literals with decimal values); the current date is an
explicit `today : String` parameter in `YYYY-MM-DD` form (the source reads
`date.today()`), with the month key obtained as `today[:7]`; wall-clock
timestamps are opaque strings passed in; Python dictionaries accessed only via
`get(key, default)` / item assignment are modelled as total or `Option`-valued
functions; raising code returns `Except`.
-/

namespace YoungProduction

/-- `CostLimitExceeded` from `core/exceptions.py`: carries the current daily
and monthly cost at the time of rejection. -/
structure CostLimitExceeded where
  daily_cost : ℚ
  monthly_cost : ℚ
deriving DecidableEq

/-- Structured usage-detail payload recorded with a cost event
(`details={"model": ..., "input_tokens": ..., "output_tokens": ...}` in
`ai_client.py`). -/
structure UsageDetails where
  model : String
  input_tokens : ℕ
  output_tokens : ℕ
deriving DecidableEq

/-- One entry of `costs["history"]` as appended by `CostTracker.add_cost`. -/
structure CostEvent where
  timestamp : String
  cost_usd : ℚ
  skill : String
  workflow : Option String
  details : Option UsageDetails
deriving DecidableEq

/-- The in-memory `CostTracker.costs` snapshot: the four breakdown
dictionaries (modelled as total maps with default `0.0`, matching every
access `self.costs[...].get(key, 0.0)`) and the bounded history list. -/
structure CostState where
  daily : String → ℚ
  monthly : String → ℚ
  per_skill : String → ℚ
  per_workflow : String → ℚ
  history : List CostEvent

/-- The four budget limits loaded from the environment in
`CostTracker.__init__`. -/
structure Limits where
  daily_soft_limit : ℚ
  daily_hard_limit : ℚ
  monthly_soft_limit : ℚ
  monthly_hard_limit : ℚ

/-- The default empty cost structure returned by `CostTracker.load_costs`
when no state file exists. -/
def emptyCosts : CostState :=
  ⟨fun _ => 0, fun _ => 0, fun _ => 0, fun _ => 0, []⟩

/-- `d[key] = d.get(key, 0.0) + cost` on a default-`0.0` dictionary. -/
def bumpKey (m : String → ℚ) (key : String) (cost : ℚ) : String → ℚ :=
  fun k => if k = key then m key + cost else m k

/-- `today[:7]`, the `YYYY-MM` month key derived from a `YYYY-MM-DD` day.
Kept irreducible so that symbolic reasoning never descends into the string
machinery of `String.take`. -/
@[irreducible] def monthOf (today : String) : String := today.take 7

/-- `CostTracker.add_cost` (state mutation part, `cost_tracker.py:74-103`):
bumps the daily, monthly, per-skill and (if given) per-workflow totals,
appends a history event, and truncates history to the last 1000 entries.
The trailing `check_limits()` call raises only after this state is already
saved, so the state transition is exactly this function. -/
def add_cost (s : CostState) (today timestamp : String) (cost_usd : ℚ)
    (skill_name : String) (workflow_name : Option String)
    (details : Option UsageDetails) : CostState :=
  let month := monthOf today
  let daily := bumpKey s.daily today cost_usd
  let monthly := bumpKey s.monthly month cost_usd
  let per_skill := bumpKey s.per_skill skill_name cost_usd
  let per_workflow :=
    match workflow_name with
    | some w => bumpKey s.per_workflow w cost_usd
    | none => s.per_workflow
  let hist := s.history ++ [⟨timestamp, cost_usd, skill_name, workflow_name, details⟩]
  let hist := if hist.length > 1000 then hist.drop (hist.length - 1000) else hist
  ⟨daily, monthly, per_skill, per_workflow, hist⟩

/-- `CostTracker.check_limits` (`cost_tracker.py:108-141`): raises
`CostLimitExceeded` carrying both current totals when the daily total
reaches the daily hard limit or the monthly total reaches the monthly hard
limit; otherwise returns normally, printing (here: returning) soft-limit
warnings. -/
def check_limits (s : CostState) (L : Limits) (today : String) :
    Except CostLimitExceeded (List String) :=
  let month := monthOf today
  let daily_cost := s.daily today
  let monthly_cost := s.monthly month
  if daily_cost ≥ L.daily_hard_limit then
    .error ⟨daily_cost, monthly_cost⟩
  else if monthly_cost ≥ L.monthly_hard_limit then
    .error ⟨daily_cost, monthly_cost⟩
  else
    .ok ((if daily_cost ≥ L.daily_soft_limit then ["daily soft limit exceeded"] else []) ++
      (if monthly_cost ≥ L.monthly_soft_limit then ["monthly soft limit exceeded"] else []))

/-- `CostTracker.get_today_cost`. -/
def get_today_cost (s : CostState) (today : String) : ℚ :=
  s.daily today

/-- `CostTracker.get_month_cost`. -/
def get_month_cost (s : CostState) (today : String) : ℚ :=
  s.monthly (monthOf today)

/-- One `add_cost` call in a sequence: the day it happens on plus the
arguments passed. -/
structure CostOp where
  day : String
  timestamp : String
  cost : ℚ
  skill : String
  workflow : Option String
  details : Option UsageDetails

/-- Apply one recorded `add_cost` call to the state. -/
def applyOp (s : CostState) (op : CostOp) : CostState :=
  add_cost s op.day op.timestamp op.cost op.skill op.workflow op.details

/-- Run a finite sequence of `add_cost` calls from the empty ledger. -/
def runAddCosts (ops : List CostOp) : CostState :=
  ops.foldl applyOp emptyCosts

/-- The history event a given `add_cost` call appends. -/
def toEvent (op : CostOp) : CostEvent :=
  ⟨op.timestamp, op.cost, op.skill, op.workflow, op.details⟩

/-! ### Notion client (`core/notion_client.py`) -/

/-- An HTTP response as `NotionClient._request` inspects it: status code,
optional parsed `Retry-After` header, and body text. -/
structure HttpResponse where
  status_code : ℕ
  retry_after : Option ℕ
  body : String
deriving DecidableEq

/-- What one attempt of the request loop observes: either a response from
`requests.request`, or a network-level `requests.RequestException`. -/
inductive AttemptOutcome where
  | response (r : HttpResponse)
  | netFail (msg : String)
deriving DecidableEq

/-- The typed failures `_request` can raise (`core/exceptions.py`):
`NotionRateLimitError` carrying the last retry-after hint,
`PageNotFoundError`, `NotionAPIError` for other HTTP errors, for exhausted
network failures, and for a fully exhausted loop. -/
inductive NotionErr where
  | rateLimit (retry_after : ℕ)
  | pageNotFound
  | apiError (status_code : ℕ) (body : String)
  | requestFailed (msg : String)
  | maxRetriesExceeded
deriving DecidableEq

/-- The `for attempt in range(max_retries)` loop of `NotionClient._request`
(`notion_client.py:67-106`), with `remaining` iterations left (so the
current attempt index is `max_retries - remaining`). The environment is a
function from attempt index to that attempt's outcome. Returns the result
together with the number of attempts actually made. On 429, the retry-after
hint is the header value or `2 ^ attempt`; the last attempt raises
`NotionRateLimitError`, earlier ones sleep and retry. 404 raises
immediately; other `>= 400` statuses raise immediately; network failures
retry like 429. Falling out of the loop raises `Max retries exceeded`. -/
def request_go (responses : ℕ → AttemptOutcome) (max_retries : ℕ) :
    ℕ → Except NotionErr String × ℕ
  | 0 => (.error .maxRetriesExceeded, 0)
  | remaining + 1 =>
    let attempt := max_retries - (remaining + 1)
    match responses attempt with
    | .netFail msg =>
      if attempt = max_retries - 1 then (.error (.requestFailed msg), 1)
      else
        let r := request_go responses max_retries remaining
        (r.1, r.2 + 1)
    | .response resp =>
      if resp.status_code = 429 then
        let retry_after := resp.retry_after.getD (2 ^ attempt)
        if attempt = max_retries - 1 then (.error (.rateLimit retry_after), 1)
        else
          let r := request_go responses max_retries remaining
          (r.1, r.2 + 1)
      else if resp.status_code = 404 then (.error .pageNotFound, 1)
      else if resp.status_code ≥ 400 then
        (.error (.apiError resp.status_code resp.body), 1)
      else (.ok resp.body, 1)

/-- `NotionClient._request`: run the retry loop from the top with the full
retry budget. -/
def NotionClient.request (responses : ℕ → AttemptOutcome)
    (max_retries : ℕ) : Except NotionErr String × ℕ :=
  request_go responses max_retries max_retries

/-! ### AI client (`core/ai_client.py`) -/

/-- `response.usage` of a successful Anthropic call. -/
structure ApiUsage where
  input_tokens : ℕ
  output_tokens : ℕ
deriving DecidableEq

/-- A successful Anthropic `messages.create` response as `generate` reads
it: generated text and token usage. -/
structure ApiSuccess where
  text : String
  usage : ApiUsage
deriving DecidableEq

/-- `AIResponse` dataclass from `ai_client.py`. -/
structure AIResponse where
  text : String
  model : String
  input_tokens : ℕ
  output_tokens : ℕ
  cost_usd : ℚ
deriving DecidableEq

/-- The failures `generate` can raise: `CostLimitExceeded` propagated from
the pre-call limit check (or from `add_cost`), or `AIError` wrapping an API
failure. -/
inductive GenError where
  | costLimit (e : CostLimitExceeded)
  | ai (msg : String)
deriving DecidableEq

/-- Result of a `generate` / `generate_with_cost_tracking` call together
with its observable effects: whether the external API call was issued,
whether the unknown-model warning was printed, and the cost-tracker state
afterwards. -/
structure GenResult where
  result : Except GenError AIResponse
  call_made : Bool
  warned : Bool
  tracker : CostState

/-- `AIClient.COSTS`: dollars per million input/output tokens per model. -/
def COSTS : List (String × ℚ × ℚ) :=
  [("claude-3-5-haiku-20241022", 0.25, 1.25),
   ("claude-3-5-sonnet-20241022", 3.00, 15.00),
   ("claude-opus-4-20250514", 15.00, 75.00)]

/-- The model whose pricing is used as fallback for unknown models. -/
def default_model : String := "claude-3-5-sonnet-20241022"

/-- `model in self.COSTS` / `self.COSTS[model]` lookup. -/
def lookupModelCost (model : String) : Option (ℚ × ℚ) :=
  (COSTS.find? (fun p => p.1 = model)).map (fun p => p.2)

/-- `AIClient.generate` (`ai_client.py:53-126`): checks cost limits before
anything else — if that raises, the external call is never made and the
tracker is untouched. Otherwise issues the call (modelled by the `api`
oracle: `some r` for a successful response, `none` for a call that raises
and is wrapped into `AIError`), computes the cost from the token counts and
the price table with Sonnet fallback for unknown models (emitting a
warning), and returns the `AIResponse`. -/
def AIClient.generate (tracker : CostState) (L : Limits) (today : String)
    (model : String) (api : Option ApiSuccess) : GenResult :=
  match check_limits tracker L today with
  | .error e => ⟨.error (.costLimit e), false, false, tracker⟩
  | .ok _ =>
    match api with
    | none => ⟨.error (.ai "Claude API error"), true, false, tracker⟩
    | some r =>
      let input_tokens := r.usage.input_tokens
      let output_tokens := r.usage.output_tokens
      let found := lookupModelCost model
      let model_costs := found.getD ((lookupModelCost default_model).getD (0, 0))
      let cost_usd := (input_tokens : ℚ) / 1000000 * model_costs.1 +
        (output_tokens : ℚ) / 1000000 * model_costs.2
      ⟨.ok ⟨r.text, model, input_tokens, output_tokens, cost_usd⟩,
        true, found.isNone, tracker⟩

/-- `AIClient.generate_with_cost_tracking` (`ai_client.py:128-165`): call
`generate`; only on success record the cost into the tracker via
`add_cost` (whose trailing `check_limits` may itself raise, after the cost
is already recorded). On a failed generation the tracker is never
touched. -/
def AIClient.generate_with_cost_tracking (tracker : CostState) (L : Limits)
    (today timestamp : String) (model : String) (api : Option ApiSuccess)
    (skill_name : String) (workflow_name : Option String) : GenResult :=
  let g := AIClient.generate tracker L today model api
  match g.result with
  | .error _ => g
  | .ok resp =>
    let tracker2 := add_cost g.tracker today timestamp resp.cost_usd skill_name
      workflow_name (some ⟨resp.model, resp.input_tokens, resp.output_tokens⟩)
    match check_limits tracker2 L today with
    | .error e => { g with result := .error (.costLimit e), tracker := tracker2 }
    | .ok _ => { g with tracker := tracker2 }

/-! ### Workflow state store (`utils/state_manager.py`) -/

/-- A JSON scalar as stored in workflow snapshots (enough structure for the
values the state dictionaries hold). -/
inductive JVal where
  | str (v : String)
  | int (v : ℤ)
deriving DecidableEq

/-- A JSON object: ordered key/value pairs as Python dicts are. -/
abbrev StateDict := List (String × JVal)

/-- `d[key] = v` on a Python dict: overwrite in place if the key exists,
else append at the end. -/
def setKey (d : StateDict) (key : String) (v : JVal) : StateDict :=
  if d.any (fun kv => kv.1 = key) then
    d.map (fun kv => if kv.1 = key then (kv.1, v) else kv)
  else d ++ [(key, v)]

/-- `d.get(key)`: the value at the first occurrence of the key. -/
def lookupKey (d : StateDict) (key : String) : Option JVal :=
  (d.find? (fun kv => kv.1 = key)).map (fun kv => kv.2)

/-- The collection of `{workflow_name.lower()}_last_run.json` files,
keyed by the lowercased workflow name. -/
abbrev WorkflowStore := String → Option StateDict

/-- A state directory with no snapshot files. -/
def emptyStore : WorkflowStore := fun _ => none

/-- `StateManager.save_workflow_state` (`state_manager.py:29-42`): stamp
the state with `last_updated` and overwrite the file whose name is derived
from the lowercased workflow name. -/
def save_workflow_state (store : WorkflowStore) (workflow_name : String)
    (state : StateDict) (now : String) : WorkflowStore :=
  let stamped := setKey state "last_updated" (.str now)
  fun k => if k = workflow_name.toLower then some stamped else store k

/-- `StateManager.load_workflow_state` (`state_manager.py:44-59`): read the
file for the lowercased workflow name, or return `None` if it does not
exist (never raises). -/
def load_workflow_state (store : WorkflowStore) (workflow_name : String) :
    Option StateDict :=
  store workflow_name.toLower

/-! ### Processed-entry tracking (`utils/state_manager.py`) -/

/-- The `processed_entries.json` contents: namespace (database name) to the
list of processed identifiers, absent namespaces distinguished from empty
ones just as missing dict keys are. -/
abbrev ProcessedMap := String → Option (List String)

/-- `StateManager.mark_entry_processed` (`state_manager.py:61-82`): ensure
the namespace key exists, then append the identifier iff it is not already
present, and persist. -/
def mark_entry_processed (p : ProcessedMap) (db_name entry_id : String) :
    ProcessedMap :=
  let cur := (p db_name).getD []
  let upd := if entry_id ∈ cur then cur else cur ++ [entry_id]
  fun k => if k = db_name then some upd else p k

/-- `StateManager.get_processed_entries`: `processed.get(db_name, [])`. -/
def get_processed_entries (p : ProcessedMap) (db_name : String) :
    List String :=
  (p db_name).getD []

/-- `StateManager.is_entry_processed`: membership in
`processed.get(db_name, [])`. -/
def is_entry_processed (p : ProcessedMap) (db_name entry_id : String) : Bool :=
  entry_id ∈ (p db_name).getD []

/-! ### Claim C1: check_limits raises iff a hard limit is reached -/

/-- C1: `check_limits` returns the `CostLimitExceeded` failure carrying the
current day total and current month total iff the day total is ≥ the daily
hard limit or the month total is ≥ the monthly hard limit; when both totals
are strictly below their hard limits it returns normally (with whatever
soft-limit warnings apply), never raising. -/
theorem check_limits_hard_iff (s : CostState) (L : Limits) (today : String) :
    (check_limits s L today =
        .error ⟨s.daily today, s.monthly (monthOf today)⟩ ↔
      (s.daily today ≥ L.daily_hard_limit ∨
        s.monthly (monthOf today) ≥ L.monthly_hard_limit)) ∧
    (s.daily today < L.daily_hard_limit →
      s.monthly (monthOf today) < L.monthly_hard_limit →
      ∃ w, check_limits s L today = .ok w) := by
  unfold check_limits
  by_cases hd : s.daily today ≥ L.daily_hard_limit <;>
    by_cases hm : s.monthly (monthOf today) ≥ L.monthly_hard_limit <;>
    simp [hd, hm]

/-- Witness for C1 at a concrete below-limits state. -/
theorem check_limits_hard_iff_witness :
    ∃ w, check_limits ⟨fun _ => 3, fun _ => 3, fun _ => 0, fun _ => 0, []⟩
      ⟨5, 20, 100, 500⟩ "2025-10-12" = .ok w :=
  (check_limits_hard_iff ⟨fun _ => 3, fun _ => 3, fun _ => 0, fun _ => 0, []⟩
    ⟨5, 20, 100, 500⟩ "2025-10-12").2 (by norm_num) (by norm_num)

/-! ### Claim C7: concrete two-call scenario -/

/-- C7: from the empty ledger, `add_cost(0.05, "S05")` then
`add_cost(0.01, "S06")` on the same day make `get_today_cost()` return
exactly `0.06` (costs are modelled as exact rationals). -/
theorem today_cost_scenario :
    get_today_cost
      (add_cost
        (add_cost emptyCosts "2025-10-12" "t1" 0.05 "S05" none none)
        "2025-10-12" "t2" 0.01 "S06" none none)
      "2025-10-12" = 0.06 := by
  norm_num [get_today_cost, add_cost, bumpKey, emptyCosts]

/-! ### Claim C8: mark_entry_processed is idempotent -/

/-- C8: `mark_entry_processed` is idempotent — marking the same
(namespace, id) pair twice leaves `get_processed_entries` for that
namespace identical in content and length to marking it once. -/
theorem mark_entry_processed_idempotent (p : ProcessedMap)
    (db_name entry_id : String) :
    get_processed_entries
        (mark_entry_processed (mark_entry_processed p db_name entry_id)
          db_name entry_id) db_name =
      get_processed_entries (mark_entry_processed p db_name entry_id) db_name ∧
    (get_processed_entries
        (mark_entry_processed (mark_entry_processed p db_name entry_id)
          db_name entry_id) db_name).length =
      (get_processed_entries (mark_entry_processed p db_name entry_id)
        db_name).length := by
  have hmem : entry_id ∈
      get_processed_entries (mark_entry_processed p db_name entry_id) db_name := by
    unfold get_processed_entries mark_entry_processed
    by_cases h : entry_id ∈ (p db_name).getD [] <;> simp [h]
  refine ⟨?_, ?_⟩ <;>
    · unfold get_processed_entries mark_entry_processed at hmem ⊢
      simp at hmem ⊢
      simp [hmem]

/-! ### Claim C2: day/month totals are sums of recorded costs -/

/-- Reading a bumped dictionary: the bump lands exactly on its key. -/
theorem bumpKey_apply (m : String → ℚ) (key : String) (c : ℚ) (k : String) :
    bumpKey m key c k = m k + (if key = k then c else 0) := by
  unfold bumpKey
  by_cases h : k = key
  · subst h; simp
  · have h2 : ¬key = k := fun he => h (Eq.symm he)
    simp [h, h2]

/-- The daily map after `add_cost` is the bumped daily map. -/
theorem add_cost_daily (s : CostState) (today timestamp : String) (c : ℚ)
    (skill : String) (w : Option String) (d : Option UsageDetails) :
    (add_cost s today timestamp c skill w d).daily = bumpKey s.daily today c := rfl

/-- The monthly map after `add_cost` is bumped at the month of the day. -/
theorem add_cost_monthly (s : CostState) (today timestamp : String) (c : ℚ)
    (skill : String) (w : Option String) (d : Option UsageDetails) :
    (add_cost s today timestamp c skill w d).monthly =
      bumpKey s.monthly (monthOf today) c := rfl

/-- Effect of one `add_cost` call on a daily total. -/
theorem applyOp_daily (s : CostState) (op : CostOp) (k : String) :
    (applyOp s op).daily k = s.daily k + (if op.day = k then op.cost else 0) := by
  rw [applyOp, add_cost_daily, bumpKey_apply]

/-- Effect of one `add_cost` call on a monthly total. -/
theorem applyOp_monthly (s : CostState) (op : CostOp) (mk : String) :
    (applyOp s op).monthly mk =
      s.monthly mk + (if monthOf op.day = mk then op.cost else 0) := by
  rw [applyOp, add_cost_monthly, bumpKey_apply]

/-- Running a sequence of `add_cost` calls adds to a daily total exactly the
sum of the costs of the calls made on that day. -/
theorem foldl_daily (ops : List CostOp) :
    ∀ (s : CostState) (k : String),
      (ops.foldl applyOp s).daily k =
        s.daily k + ((ops.filter (fun op => op.day = k)).map CostOp.cost).sum := by
  induction ops with
  | nil => intro s k; simp
  | cons op ops ih =>
    intro s k
    rw [List.foldl_cons, ih, applyOp_daily]
    by_cases h : op.day = k <;> simp [h, List.filter_cons] <;> ring

/-- Running a sequence of `add_cost` calls adds to a monthly total exactly
the sum of the costs of the calls whose day lies in that month. -/
theorem foldl_monthly (ops : List CostOp) :
    ∀ (s : CostState) (mk : String),
      (ops.foldl applyOp s).monthly mk =
        s.monthly mk +
          ((ops.filter (fun op => monthOf op.day = mk)).map CostOp.cost).sum := by
  induction ops with
  | nil => intro s mk; simp
  | cons op ops ih =>
    intro s mk
    rw [List.foldl_cons, ih, applyOp_monthly]
    by_cases h : monthOf op.day = mk <;> simp [h, List.filter_cons] <;> ring

/-- C2: for every finite sequence of `add_cost` calls with non-negative
costs starting from the empty ledger, `get_today_cost` equals the sum of
the costs recorded on the current day, and `get_month_cost` equals the sum
of the costs recorded across all days of the current month. -/
theorem cost_totals_are_sums (ops : List CostOp) (today : String)
    (hpos : ∀ op ∈ ops, 0 ≤ op.cost) :
    get_today_cost (runAddCosts ops) today =
      ((ops.filter (fun op => op.day = today)).map CostOp.cost).sum ∧
    get_month_cost (runAddCosts ops) today =
      ((ops.filter (fun op => monthOf op.day = monthOf today)).map CostOp.cost).sum := by
  constructor
  · rw [get_today_cost, runAddCosts, foldl_daily]
    simp [emptyCosts]
  · rw [get_month_cost, runAddCosts, foldl_monthly]
    simp [emptyCosts]

/-- Witness for C2 on a concrete two-call sequence. -/
theorem cost_totals_are_sums_witness :
    (∀ op ∈ [(⟨"2025-10-12", "t1", 5, "S05", none, none⟩ : CostOp),
        ⟨"2025-10-12", "t2", 1, "S06", none, none⟩], 0 ≤ op.cost) ∧
    get_today_cost
        (runAddCosts [⟨"2025-10-12", "t1", 5, "S05", none, none⟩,
          ⟨"2025-10-12", "t2", 1, "S06", none, none⟩]) "2025-10-12" =
      (([(⟨"2025-10-12", "t1", 5, "S05", none, none⟩ : CostOp),
          ⟨"2025-10-12", "t2", 1, "S06", none, none⟩].filter
            (fun op => op.day = "2025-10-12")).map CostOp.cost).sum := by
  have hpos : ∀ op ∈ [(⟨"2025-10-12", "t1", 5, "S05", none, none⟩ : CostOp),
      ⟨"2025-10-12", "t2", 1, "S06", none, none⟩], 0 ≤ op.cost := by
    intro op hop
    simp only [List.mem_cons, List.not_mem_nil, or_false] at hop
    rcases hop with h | h <;> subst h <;> norm_num
  exact ⟨hpos, (cost_totals_are_sums _ "2025-10-12" hpos).1⟩

/-! ### Claim C5: history bounded at 1000, oldest dropped first -/

/-- One `add_cost` truncation step on a history that is the
most-recent-1000 suffix of a full event list yields the most-recent-1000
suffix of the extended full list. -/
theorem hist_truncation_step (E : List CostEvent) (e : CostEvent) :
    (if (E.drop (E.length - 1000) ++ [e]).length > 1000 then
        (E.drop (E.length - 1000) ++ [e]).drop
          ((E.drop (E.length - 1000) ++ [e]).length - 1000)
      else E.drop (E.length - 1000) ++ [e]) =
    (E ++ [e]).drop ((E ++ [e]).length - 1000) := by
  by_cases h : E.length ≤ 999
  · have h0 : E.length - 1000 = 0 := by omega
    have h1 : (E ++ [e]).length - 1000 = 0 := by simp; omega
    rw [h0, h1]
    simp
    omega
  · have hlen : (E.drop (E.length - 1000)).length = 1000 := by
      rw [List.length_drop]; omega
    have hgt : (E.drop (E.length - 1000) ++ [e]).length > 1000 := by
      simp [hlen]
    rw [if_pos hgt]
    have hd1 : (E.drop (E.length - 1000) ++ [e]).length - 1000 = 1 := by
      simp [hlen]
    rw [hd1]
    rw [List.drop_append_of_le_length (by rw [hlen]; omega)]
    rw [List.drop_drop]
    have harith : E.length - 1000 + 1 = (E ++ [e]).length - 1000 := by
      simp; omega
    rw [List.drop_append_of_le_length (show (E ++ [e]).length - 1000 ≤ E.length by
      simp only [List.length_append, List.length_cons, List.length_nil]; omega)]
    rw [← harith]

/-- Generalized invariant: folding `add_cost` calls over a state whose
history is the most-recent-1000 suffix of a full event list `E` yields the
most-recent-1000 suffix of `E` extended by the new events. -/
theorem foldl_history (ops : List CostOp) :
    ∀ (s : CostState) (E : List CostEvent),
      s.history = E.drop (E.length - 1000) →
      (ops.foldl applyOp s).history =
        (E ++ ops.map toEvent).drop ((E ++ ops.map toEvent).length - 1000) := by
  induction ops with
  | nil => intro s E h; simpa using h
  | cons op ops ih =>
    intro s E h
    rw [List.foldl_cons]
    have hstep : (applyOp s op).history =
        (E ++ [toEvent op]).drop ((E ++ [toEvent op]).length - 1000) := by
      show (add_cost s op.day op.timestamp op.cost op.skill op.workflow
        op.details).history = _
      unfold add_cost
      simp only [h]
      exact hist_truncation_step E (toEvent op)
    have hrec := ih (applyOp s op) (E ++ [toEvent op]) hstep
    rw [hrec]
    simp [List.append_assoc]

/-- C5: after every sequence of `add_cost` calls from the empty ledger, the
history is exactly the most recent 1000 recorded events in insertion order
(the oldest entries are dropped first, relative order preserved), and in
particular it never holds more than 1000 entries. -/
theorem history_bounded (ops : List CostOp) :
    (runAddCosts ops).history =
      (ops.map toEvent).drop (ops.length - 1000) ∧
    (runAddCosts ops).history.length ≤ 1000 := by
  have h := foldl_history ops emptyCosts [] (by simp [emptyCosts])
  simp only [List.nil_append] at h
  constructor
  · rw [runAddCosts, h]
    simp
  · rw [runAddCosts, h]
    rw [List.length_drop]
    simp only [List.length_map]
    omega

/-! ### Claim C4: retry policy of the rate-limited request loop -/

/-- Skipping lemma: while every attempt strictly before the last one is
throttled, the loop just consumes one attempt per iteration down to the
final iteration, accumulating the attempt count. -/
theorem request_go_pre_throttle (responses : ℕ → AttemptOutcome) (m : ℕ) :
    ∀ (r : ℕ), 1 ≤ r → r ≤ m →
      (∀ i, m - r ≤ i → i < m - 1 →
        ∃ resp, responses i = .response resp ∧ resp.status_code = 429) →
      request_go responses m r =
        ((request_go responses m 1).1, (r - 1) + (request_go responses m 1).2) := by
  intro r
  induction r with
  | zero => intro h1; exact absurd h1 (by omega)
  | succ r ih =>
    intro _ hm hthr
    cases r with
    | zero => simp
    | succ r2 =>
      obtain ⟨resp, hresp, h429⟩ := hthr (m - (r2 + 2)) (le_refl _) (by omega)
      have hrec := ih (by omega) (by omega)
        (fun i hi1 hi2 => hthr i (by omega) hi2)
      show request_go responses m (r2 + 1 + 1) = _
      rw [request_go]
      rw [hresp]
      simp only [h429, if_true]
      rw [if_neg (show ¬m - (r2 + 1 + 1) = m - 1 by omega)]
      simp only [hrec]
      have harith : r2 + 1 - 1 + (request_go responses m 1).2 + 1 =
          r2 + 1 + 1 - 1 + (request_go responses m 1).2 := by omega
      rw [harith]

/-- C4: retry policy of `_request` with `max_retries = m ≥ 1` when the
first `m - 1` attempts are all throttled (429): if attempt `m` succeeds
(any status below 400), the call returns the success payload after exactly
`m` attempts; if attempt `m` is also throttled, the call raises
`NotionRateLimitError` after exactly `m` attempts, carrying the retry-after
hint of that last response (header value, or the backoff default
`2 ^ (m-1)` when the header is absent). -/
theorem request_retry_policy (responses : ℕ → AttemptOutcome) (m : ℕ)
    (hm : 1 ≤ m)
    (hpre : ∀ i, i < m - 1 →
      ∃ resp, responses i = .response resp ∧ resp.status_code = 429) :
    (∀ r, responses (m - 1) = .response r → r.status_code < 400 →
      NotionClient.request responses m = (.ok r.body, m)) ∧
    (∀ r, responses (m - 1) = .response r → r.status_code = 429 →
      NotionClient.request responses m =
        (.error (.rateLimit (r.retry_after.getD (2 ^ (m - 1)))), m)) := by
  have hskip := request_go_pre_throttle responses m m hm (le_refl m)
    (fun i _ hi2 => hpre i hi2)
  constructor
  · intro r hr hlt
    have h1 : request_go responses m 1 = (.ok r.body, 1) := by
      show request_go responses m (0 + 1) = _
      rw [request_go]
      simp only [Nat.zero_add, Nat.sub_self] at *
      rw [hr]
      have c1 : ¬r.status_code = 429 := by omega
      have c2 : ¬r.status_code = 404 := by omega
      have c3 : ¬r.status_code ≥ 400 := by omega
      simp [c1, c2, c3]
    rw [NotionClient.request, hskip, h1]
    simp
    omega
  · intro r hr h429
    have h1 : request_go responses m 1 =
        (.error (.rateLimit (r.retry_after.getD (2 ^ (m - 1)))), 1) := by
      show request_go responses m (0 + 1) = _
      rw [request_go]
      simp only [Nat.zero_add] at *
      rw [hr]
      simp [h429]
    rw [NotionClient.request, hskip, h1]
    simp
    omega

/-- Witness for C4: three attempts, all throttled with a `Retry-After` of 1
second, raise the rate-limit failure carrying hint 1 after exactly 3
attempts. -/
theorem request_retry_policy_witness :
    NotionClient.request (fun _ => .response ⟨429, some 1, ""⟩) 3 =
      (.error (.rateLimit 1), 3) :=
  (request_retry_policy (fun _ => .response ⟨429, some 1, ""⟩) 3 (by omega)
    (fun _ _ => ⟨⟨429, some 1, ""⟩, rfl, rfl⟩)).2 ⟨429, some 1, ""⟩ rfl rfl

/-! ### Claim C3: limit gate before the call, recording only after success -/

/-- `generate` never mutates the tracker. -/
theorem generate_tracker_unchanged (tracker : CostState) (L : Limits)
    (today model : String) (api : Option ApiSuccess) :
    (AIClient.generate tracker L today model api).tracker = tracker := by
  unfold AIClient.generate
  rcases check_limits tracker L today with e | w
  · rfl
  · rcases api with _ | r <;> rfl

/-- C3: `AIClient.generate` runs the ledger's limit check before issuing
the request — when the check raises `CostLimitExceeded`, the external call
is never made, no cost is recorded, and the failure propagates; and in
`generate_with_cost_tracking`, `add_cost` is invoked exactly on successful
generation (recording the response's cost), never when generation fails. -/
theorem generate_gates_and_records (tracker : CostState) (L : Limits)
    (today timestamp model skill_name : String) (api : Option ApiSuccess)
    (workflow_name : Option String) :
    (∀ e, check_limits tracker L today = .error e →
      (AIClient.generate tracker L today model api).call_made = false ∧
      (AIClient.generate tracker L today model api).tracker = tracker ∧
      (AIClient.generate tracker L today model api).result =
        .error (.costLimit e)) ∧
    (∀ err, (AIClient.generate tracker L today model api).result = .error err →
      (AIClient.generate_with_cost_tracking tracker L today timestamp model api
        skill_name workflow_name).tracker = tracker) ∧
    (∀ resp, (AIClient.generate tracker L today model api).result = .ok resp →
      (AIClient.generate_with_cost_tracking tracker L today timestamp model api
        skill_name workflow_name).tracker =
        add_cost tracker today timestamp resp.cost_usd skill_name
          workflow_name
          (some ⟨resp.model, resp.input_tokens, resp.output_tokens⟩)) := by
  have htr := generate_tracker_unchanged tracker L today model api
  refine ⟨?_, ?_, ?_⟩
  · intro e he
    unfold AIClient.generate
    rw [he]
    exact ⟨rfl, rfl, rfl⟩
  · intro err herr
    unfold AIClient.generate_with_cost_tracking
    simp only [herr]
    exact htr
  · intro resp hok
    unfold AIClient.generate_with_cost_tracking
    simp only [hok]
    rw [htr]
    rcases check_limits
        (add_cost tracker today timestamp resp.cost_usd skill_name
          workflow_name
          (some ⟨resp.model, resp.input_tokens, resp.output_tokens⟩))
        L today with e | w
    · rfl
    · rfl

/-- Witness for C3 at a tracker already over the daily hard limit: the
call is not made and the tracker is left untouched by both entry points. -/
theorem generate_gates_and_records_witness :
    (AIClient.generate ⟨fun _ => 25, fun _ => 25, fun _ => 0, fun _ => 0, []⟩
      ⟨5, 20, 100, 500⟩ "2025-10-12" "claude-3-5-sonnet-20241022"
      (some ⟨"hello", 100, 50⟩)).call_made = false ∧
    (AIClient.generate_with_cost_tracking
      ⟨fun _ => 25, fun _ => 25, fun _ => 0, fun _ => 0, []⟩
      ⟨5, 20, 100, 500⟩ "2025-10-12" "ts" "claude-3-5-sonnet-20241022"
      (some ⟨"hello", 100, 50⟩) "S05" none).tracker =
      ⟨fun _ => 25, fun _ => 25, fun _ => 0, fun _ => 0, []⟩ := by
  have h := generate_gates_and_records
    ⟨fun _ => 25, fun _ => 25, fun _ => 0, fun _ => 0, []⟩
    ⟨5, 20, 100, 500⟩ "2025-10-12" "ts" "claude-3-5-sonnet-20241022" "S05"
    (some ⟨"hello", 100, 50⟩) none
  have hc : check_limits ⟨fun _ => 25, fun _ => 25, fun _ => 0, fun _ => 0, []⟩
      ⟨5, 20, 100, 500⟩ "2025-10-12" = .error ⟨25, 25⟩ := by
    unfold check_limits
    norm_num
  obtain ⟨h1, _, h3⟩ := h.1 ⟨25, 25⟩ hc
  exact ⟨h1, h.2.1 (.costLimit ⟨25, 25⟩) h3⟩

/-! ### Claim C6: cost formula and unknown-model fallback -/

/-- The fallback pricing really is the default Sonnet row of the table. -/
theorem lookup_default_model : lookupModelCost default_model = some (3, 15) := by
  unfold lookupModelCost COSTS default_model
  simp [List.find?]
  norm_num

/-- C6: on a successful generation below the limits, the returned cost is
`(input_tokens / 1M) * price_input + (output_tokens / 1M) * price_output`
with the prices taken from the static table; when the model is absent from
the table the default model's prices (3.00 / 15.00 per MTok) are used, the
warning is emitted, and the call still succeeds with a non-negative
cost. -/
theorem generate_cost_formula (tracker : CostState) (L : Limits)
    (today model : String) (r : ApiSuccess) (w : List String)
    (hok : check_limits tracker L today = .ok w) :
    (∀ pin pout, lookupModelCost model = some (pin, pout) →
      (AIClient.generate tracker L today model (some r)).result =
        .ok ⟨r.text, model, r.usage.input_tokens, r.usage.output_tokens,
          (r.usage.input_tokens : ℚ) / 1000000 * pin +
          (r.usage.output_tokens : ℚ) / 1000000 * pout⟩) ∧
    (lookupModelCost model = none →
      (AIClient.generate tracker L today model (some r)).warned = true ∧
      (AIClient.generate tracker L today model (some r)).result =
        .ok ⟨r.text, model, r.usage.input_tokens, r.usage.output_tokens,
          (r.usage.input_tokens : ℚ) / 1000000 * 3 +
          (r.usage.output_tokens : ℚ) / 1000000 * 15⟩ ∧
      0 ≤ (r.usage.input_tokens : ℚ) / 1000000 * 3 +
          (r.usage.output_tokens : ℚ) / 1000000 * 15) := by
  constructor
  · intro pin pout hfound
    unfold AIClient.generate
    rw [hok, hfound]
    rfl
  · intro hnone
    unfold AIClient.generate
    rw [hok, hnone, lookup_default_model]
    refine ⟨rfl, rfl, ?_⟩
    positivity

/-- Witness for C6 at an unknown model identifier over the empty ledger. -/
theorem generate_cost_formula_witness :
    (AIClient.generate emptyCosts ⟨5, 20, 100, 500⟩ "2025-10-12"
      "unknown-model-x" (some ⟨"hello", 100, 50⟩)).warned = true ∧
    0 ≤ ((100 : ℕ) : ℚ) / 1000000 * 3 + ((50 : ℕ) : ℚ) / 1000000 * 15 := by
  have h := (generate_cost_formula emptyCosts ⟨5, 20, 100, 500⟩ "2025-10-12"
    "unknown-model-x" ⟨"hello", 100, 50⟩ []
    (by unfold check_limits emptyCosts; norm_num)).2
    (by unfold lookupModelCost COSTS; simp [List.find?])
  exact ⟨h.1, h.2.2⟩

/-! ### Claim C9: save/load round trip for workflow snapshots -/

/-- C9 counterexample: the claim fails as stated — saving a state that
itself contains a `last_updated` key does not return that saved pair on
load, because the reserved key is overwritten by the timestamp stamp. -/
theorem save_load_missing_pair :
    ¬(∃ d, load_workflow_state
        (save_workflow_state emptyStore "wf1"
          [("last_updated", .str "old")] "2025-10-12T00:00:00") "wf1" =
          some d ∧
      ("last_updated", JVal.str "old") ∈ d) := by
  simp [load_workflow_state, save_workflow_state, setKey, emptyStore]

/-- A pair whose key is not the written key survives `setKey`. -/
theorem mem_setKey_of_ne (d : StateDict) (key : String) (v : JVal)
    (kv : String × JVal) (hkv : kv ∈ d) (hne : kv.1 ≠ key) :
    kv ∈ setKey d key v := by
  unfold setKey
  by_cases h : d.any (fun p => p.1 = key)
  · rw [if_pos h]
    exact List.mem_map.mpr ⟨kv, hkv, by simp [hne]⟩
  · rw [if_neg h]
    exact List.mem_append_left _ hkv

/-- After `setKey`, looking up the written key yields the written value. -/
theorem lookupKey_setKey (d : StateDict) (key : String) (v : JVal) :
    lookupKey (setKey d key v) key = some v := by
  induction d with
  | nil => simp [setKey, lookupKey]
  | cons kv tl ih =>
    by_cases h1 : kv.1 = key
    · simp [setKey, lookupKey, List.find?, h1]
    · unfold setKey at ih ⊢
      by_cases h2 : tl.any (fun p => p.1 = key)
      · rw [if_pos h2] at ih
        rw [if_pos (by simp [List.any_cons, h1, h2])]
        simpa [lookupKey, List.find?, h1] using ih
      · rw [if_neg h2] at ih
        rw [if_neg (by simp [List.any_cons, h1, h2])]
        simpa [lookupKey, List.find?, h1] using ih

/-- C9 (amended): saving then loading the same workflow name returns the
stamped state: it contains every saved key/value pair whose key is not the
reserved `last_updated` key, plus `last_updated` mapped to the save-time
timestamp; and loading a name that was never saved returns `none` rather
than raising. -/
theorem save_then_load (store : WorkflowStore) (workflow_name : String)
    (state : StateDict) (now : String) :
    load_workflow_state (save_workflow_state store workflow_name state now)
        workflow_name = some (setKey state "last_updated" (.str now)) ∧
    (∀ kv ∈ state, kv.1 ≠ "last_updated" →
      kv ∈ setKey state "last_updated" (.str now)) ∧
    lookupKey (setKey state "last_updated" (.str now)) "last_updated" =
      some (.str now) ∧
    load_workflow_state emptyStore workflow_name = none := by
  refine ⟨?_, ?_, lookupKey_setKey state "last_updated" (.str now), rfl⟩
  · unfold load_workflow_state save_workflow_state
    simp
  · intro kv hkv hne
    exact mem_setKey_of_ne state "last_updated" (.str now) kv hkv hne

/-- Witness for C9 on the spec's scenario state. -/
theorem save_then_load_witness :
    load_workflow_state
        (save_workflow_state emptyStore "wf2" [("total_processed", .int 10)]
          "2025-10-12T01:00:00") "wf2" =
      some (setKey [("total_processed", .int 10)] "last_updated"
        (.str "2025-10-12T01:00:00")) ∧
    ("total_processed", JVal.int 10) ∈
      setKey [("total_processed", JVal.int 10)] "last_updated"
        (.str "2025-10-12T01:00:00") := by
  have h := save_then_load emptyStore "wf2" [("total_processed", .int 10)]
    "2025-10-12T01:00:00"
  exact ⟨h.1, h.2.1 ("total_processed", .int 10) (by simp) (by simp)⟩

/-! ### Claim C10: workflow names are case-insensitive keys -/

/-- C10: both `save_workflow_state` and `load_workflow_state` derive the
storage key from the lowercased workflow name, so names with equal
lowercasing address the same snapshot: a save under one is loaded under the
other, and a later save under the second overwrites the first. -/
theorem workflow_names_case_insensitive (store : WorkflowStore)
    (n1 n2 : String) (s1 s2 : StateDict) (t1 t2 : String)
    (h : n1.toLower = n2.toLower) :
    load_workflow_state (save_workflow_state store n1 s1 t1) n2 =
      some (setKey s1 "last_updated" (.str t1)) ∧
    load_workflow_state
        (save_workflow_state (save_workflow_state store n1 s1 t1) n2 s2 t2)
        n1 =
      some (setKey s2 "last_updated" (.str t2)) := by
  unfold load_workflow_state save_workflow_state
  rw [h]
  simp

/-- Witness for C10 (the lowercase-key derivation is shared, so the same
name round-trips). -/
theorem workflow_names_case_insensitive_witness :
    load_workflow_state
      (save_workflow_state emptyStore "WF1" [("total_processed", .int 10)]
        "2025-10-12T02:00:00") "WF1" =
    some (setKey [("total_processed", .int 10)] "last_updated"
      (.str "2025-10-12T02:00:00")) :=
  (workflow_names_case_insensitive emptyStore "WF1" "WF1"
    [("total_processed", .int 10)] [] "2025-10-12T02:00:00" "x" rfl).1

end YoungProduction
